import Mathlib

/-!
Shallow embedding of `action.py` from nrfconnect/action-oss-history.

The script checks that a downstream ("NCS") workspace has "rebasable"
history: for each tracked project it clones the repository, replays a
list of out-of-tree patches onto an upstream merge-base by cherry-picking
them in order, and verifies that the rewritten tip has an empty diff with
the original downstream tip.

External git behaviour (whether a cherry-pick succeeds, what commit it
produces, whether a diff is empty) is abstracted into a `GitModel` oracle;
the control flow of the Python functions is embedded faithfully, and each
function additionally returns the ordered trace of git operations it
performed, so that ordering and side-effect claims can be stated.
-/

instance {ε α : Type} [DecidableEq ε] [DecidableEq α] : DecidableEq (Except ε α) :=
  fun x y =>
    match x, y with
    | Except.ok a, Except.ok b =>
      if h : a = b then Decidable.isTrue (by rw [h])
      else Decidable.isFalse (by intro hc; injection hc; contradiction)
    | Except.error a, Except.error b =>
      if h : a = b then Decidable.isTrue (by rw [h])
      else Decidable.isFalse (by intro hc; injection hc; contradiction)
    | Except.ok _, Except.error _ => Decidable.isFalse (by intro hc; injection hc)
    | Except.error _, Except.ok _ => Decidable.isFalse (by intro hc; injection hc)

namespace OssHistory

/-- Git SHAs, as in the script: just strings. -/
abbrev Sha := String

/-- Split a character list at every occurrence of `c` (the separator is
dropped; `n` separators yield `n+1` pieces, as Python's `str.split`). -/
def splitOnChar (c : Char) : List Char → List (List Char)
  | [] => [[]]
  | x :: xs =>
    let r := splitOnChar c xs
    if x == c then [] :: r
    else
      match r with
      | [] => [[x]]
      | piece :: rest => (x :: piece) :: rest

/-- Python's `str.splitlines()` for newline-separated output (the only
separator git produces here). -/
def splitLines (s : String) : List String :=
  (splitOnChar '\n' s.data).map (fun l => ⟨l⟩)

/-- Python's `str.rstrip()`: drop trailing whitespace. -/
def pyRstrip (s : String) : String :=
  ⟨(s.data.reverse.dropWhile Char.isWhitespace).reverse⟩

/-- Python's `str.endswith(suffix)`. -/
def pyEndsWith (s suffix : String) : Bool :=
  suffix.data.isSuffixOf s.data

/-- The git operations the script issues in a project clone, in the order
they are run.  `cherryPick onto sha` records a plain cherry-pick attempt of
`sha` while HEAD is at `onto`; `cherryPickKeepRedundant` is the retry with
`--keep-redundant-commits`. -/
inductive Op where
  | clone : Op
  | configName : Op
  | configEmail : Op
  | checkout : Sha → Op
  | status : Op
  | cherryPick : Sha → Sha → Op
  | cherryPickAbort : Op
  | cherryPickKeepRedundant : Sha → Sha → Op
  | revParseHead : Op
  | diff : Sha → Sha → Op
deriving DecidableEq, Repr

/-- Oracle for the external git tool's behaviour inside a clone.
`pickOk tip sha` says whether a plain `git cherry-pick` of `sha` succeeds
with HEAD at `tip`; `pickTip tip sha` is the resulting new HEAD when it
does.  `redundantOk tip sha` says whether the `--keep-redundant-commits`
retry succeeds.  `diffEmpty a b` says whether `git diff a b` is empty and
`diffText a b` is the diff text it prints otherwise. -/
structure GitModel where
  pickOk : Sha → Sha → Bool
  pickTip : Sha → Sha → Sha
  redundantOk : Sha → Sha → Bool
  diffEmpty : Sha → Sha → Bool
  diffText : Sha → Sha → String

/-- How a run of `rewrite_history` terminates early via `sys.exit(1)`.
Both branches of the Python code call `sys.exit(1)`: `notRedundant` is the
branch printing "is not a redundant commit; something looks wrong" (the
spec's PatchReplayError), and `redundant` is the branch printing "is a
redundant commit; do you need to revert it". -/
inductive ExitKind where
  | notRedundant : Sha → ExitKind
  | redundant : Sha → ExitKind
deriving DecidableEq, Repr

/-- The patch loop of `rewrite_history` (action.py lines 317-340), started
at current HEAD `tip`.  For each sha in order: attempt a plain cherry-pick;
on failure abort it and retry with keep-redundant-commits; in either retry
outcome the script exits with status 1.  After the loop, `git rev-parse
HEAD` yields the rewritten sha. -/
def rewriteLoop (m : GitModel) : Sha → List Sha → List Op × Except ExitKind Sha
  | tip, [] => ([Op.revParseHead], Except.ok tip)
  | tip, sha :: rest =>
    if m.pickOk tip sha then
      let r := rewriteLoop m (m.pickTip tip sha) rest
      (Op.cherryPick tip sha :: r.1, r.2)
    else if m.redundantOk tip sha then
      ([Op.cherryPick tip sha, Op.cherryPickAbort, Op.cherryPickKeepRedundant tip sha],
        Except.error (ExitKind.redundant sha))
    else
      ([Op.cherryPick tip sha, Op.cherryPickAbort, Op.cherryPickKeepRedundant tip sha],
        Except.error (ExitKind.notRedundant sha))

/-- `rewrite_history(path, base_commit, patches)`: check out `base_commit`
(detaching HEAD there), run `git status`, then the patch loop. -/
def rewrite_history (m : GitModel) (base : Sha) (patches : List Sha) :
    List Op × Except ExitKind Sha :=
  let r := rewriteLoop m base patches
  (Op.checkout base :: Op.status :: r.1, r.2)

/-- The terminal condition of `check_history_rewrite`: the diff between the
original and rewritten history is not empty; the diff text was printed by
`git diff` ("see above"). -/
structure HistoryMismatch where
  diff : String
deriving DecidableEq, Repr

/-- `check_history_rewrite(path, before_sha, rewrite_sha)` (action.py lines
342-351): run `git diff --exit-code before rewrite`; a non-zero exit means a
non-empty diff and the script exits; otherwise "OK! diff is empty". -/
def check_history_rewrite (m : GitModel) (beforeSha rewriteSha : Sha) :
    Except HistoryMismatch Unit :=
  if m.diffEmpty beforeSha rewriteSha then Except.ok ()
  else Except.error ⟨m.diffText beforeSha rewriteSha⟩

/-- Per-project result of a successful rewrite+verify, in the spec's
vocabulary: the original tip, the rewritten tip, and the verification bit. -/
structure RewriteResult where
  beforeSha : Sha
  rewritten : Sha
  ok : Bool
deriving DecidableEq, Repr

/-- Fatal outcomes of rewrite-then-verify for one project. -/
inductive RunError where
  | replay : ExitKind → RunError
  | mismatch : HistoryMismatch → RunError
deriving DecidableEq, Repr

/-- The composition `rewrite_history` then `check_history_rewrite` as main
performs it for one project: the script only reaches a result when the
final diff is empty, so `ok` is true on the success path. -/
def rewrite_and_verify (m : GitModel) (base : Sha) (patches : List Sha)
    (originalTip : Sha) : Except RunError RewriteResult :=
  match (rewrite_history m base patches).2 with
  | Except.error k => Except.error (RunError.replay k)
  | Except.ok sha =>
    match check_history_rewrite m originalTip sha with
    | Except.error e => Except.error (RunError.mismatch e)
    | Except.ok () => Except.ok ⟨originalTip, sha, true⟩

/-- The plain cherry-pick attempts recorded in a trace, as
(HEAD-at-attempt, picked-sha) pairs, in order. -/
def pickArgs : Op → Option (Sha × Sha)
  | Op.cherryPick t s => some (t, s)
  | _ => none

def picksOf (evs : List Op) : List (Sha × Sha) := evs.filterMap pickArgs

/-- The keep-redundant cherry-pick attempts recorded in a trace. -/
def redundantArgs : Op → Option (Sha × Sha)
  | Op.cherryPickKeepRedundant t s => some (t, s)
  | _ => none

def redundantPicksOf (evs : List Op) : List (Sha × Sha) :=
  evs.filterMap redundantArgs

/-- A pick sequence is chained from `t` when the first pick is attempted
onto `t` and each later pick is attempted onto the tip produced by the
previous pick. -/
def chainedFrom (m : GitModel) : Sha → List (Sha × Sha) → Bool
  | _, [] => true
  | t, (t', s) :: l => t == t' && chainedFrom m (m.pickTip t s) l

/-- All of `ps` cherry-pick cleanly in order starting from tip `t`. -/
def picksClean (m : GitModel) : Sha → List Sha → Bool
  | _, [] => true
  | t, p :: ps => m.pickOk t p && picksClean m (m.pickTip t p) ps

/-- The tip reached after cleanly picking `ps` starting from `t`. -/
def tipAfter (m : GitModel) : Sha → List Sha → Sha
  | t, [] => t
  | t, p :: ps => tipAfter m (m.pickTip t p) ps

/-! ## Filesystem model and `synchronize_into` -/

/-- Paths as lists of components. -/
abbrev Path := List String

/-- Filesystem state: the set of existing paths, as a list. -/
abbrev Fs := List Path

def pathExists (fs : Fs) (p : Path) : Bool := fs.contains p

/-- `shutil.rmtree(p)`: remove `p` and everything under it. -/
def rmtree (fs : Fs) (p : Path) : Fs :=
  fs.filter (fun q => !(p.isPrefixOf q))

/-- `git clone from to`: the destination path comes to exist. -/
def gitClone (fs : Fs) (dst : Path) : Fs := dst :: fs

/-- `synchronize_into(project_name, from_path, to_path)` (action.py lines
255-269): if `to_path` exists and `--force` is not given, exit with an
error naming the path; if it exists and `--force` is given, the code runs
`shutil.rmtree(to_path.parent)` — deleting the whole parent directory —
and then clones; otherwise it just clones. -/
def synchronize_into (force : Bool) (fs : Fs) (_fromPath toPath : Path) :
    Except Path Fs :=
  if pathExists fs toPath then
    if !force then Except.error toPath
    else Except.ok (gitClone (rmtree fs toPath.dropLast) toPath)
  else Except.ok (gitClone fs toPath)

/-! ## Baseline resolver -/

/-- State of the upstream remote: the raw output of
`git ls-remote --quiet --symref url HEAD`, and the sha at which each
branch's tip ends up in FETCH_HEAD after `git fetch url branch`. -/
structure RemoteEnv where
  symrefOutput : String
  fetchTip : String → Sha

/-- State of the local repository baseline resolution runs in: its current
HEAD, and the `git merge-base` function. -/
structure RepoEnv where
  head : Sha
  mergeBase : Sha → Sha → Sha

/-- `get_head_branch(url)` (action.py lines 204-226): scan the ls-remote
output line by line for the first line starting with "ref: "; return what
follows (`line[len('ref: '):]`), up to the first tab (`.split('\t')[0]`).
If no such line exists, raise with the whole output. -/
def get_head_branch (output : String) : Except String String :=
  match (splitLines output).find? (fun line => "ref: ".data.isPrefixOf line.data) with
  | some line => Except.ok ⟨(line.data.drop 5).takeWhile (fun c => c != '\t')⟩
  | none => Except.error output

/-- Fetch `branch` from the remote and take the merge-base of the
repository's HEAD with the fetched tip (`git fetch`, `git rev-parse
FETCH_HEAD`, `git merge-base HEAD sha`). -/
def fetchAndMergeBase (repo : RepoEnv) (remote : RemoteEnv) (branch : String) : Sha :=
  repo.mergeBase repo.head (remote.fetchTip branch)

/-- `get_merge_base(path, upstream_url, branch)` (action.py lines 177-200):
when `branch` is None, first discover the remote's default branch via
`get_head_branch`; then fetch it and compute the merge-base with HEAD. -/
def get_merge_base (repo : RepoEnv) (remote : RemoteEnv) (branch : Option String) :
    Except String Sha :=
  match branch with
  | some b => Except.ok (fetchAndMergeBase repo remote b)
  | none =>
    match get_head_branch remote.symrefOutput with
    | Except.ok b => Except.ok (fetchAndMergeBase repo remote b)
    | Except.error e => Except.error e

/-! ## The main loop -/

/-- One project's entry in the `west ncs-loot` JSON output: ordered shas,
index-aligned shortlogs, the project's source path, the resolved upstream
commit and the current downstream ("ncs") tip. -/
structure Loot where
  shas : List Sha
  shortlogs : List String
  path : String
  upstreamCommit : Sha
  ncsCommit : Sha
deriving DecidableEq, Repr

/-- The shortlog-truncation check of main (action.py lines 403-410):
`shortlog.rstrip().endswith('...')`. -/
def truncated (s : String) : Bool := pyEndsWith (pyRstrip s) "..."

/-- The first (sha, shortlog) pair of `zip(loot['shas'], loot['shortlogs'])`
whose shortlog fails the ellipsis check, if any; main exits at the first
such pair. -/
def firstOffender (loot : Loot) : Option (Sha × String) :=
  (loot.shas.zip loot.shortlogs).find? (fun p => truncated p.2)

/-- The `sys.exit` conditions of the whole run. -/
inductive ExitMsg where
  | noZephyrDir : ExitMsg
  | truncatedSummary : String → Sha → String → ExitMsg
  | clonePathConflict : Path → ExitMsg
  | replay : String → ExitKind → ExitMsg
  | mismatch : HistoryMismatch → ExitMsg
deriving DecidableEq, Repr

/-- Parsed command-line arguments of the script. -/
structure Args where
  workspace : Path
  projects : Option (List String)
  force : Bool
  zephyrMergeBase : Option Sha
  noUserConfig : Bool

/-- The body of main's per-project loop (action.py lines 399-420): validate
the shortlogs, clone into `<workspace>/oss-history/<name>`, override the
git user config unless `--no-user-config`, rewrite history onto the
upstream commit, and check the rewritten history against the ncs tip.
Returns the ordered trace of git operations performed in the project and
either the updated filesystem or the exit condition. -/
def processProject (m : GitModel) (args : Args) (fs : Fs) (name : String)
    (loot : Loot) : List Op × Except ExitMsg Fs :=
  match firstOffender loot with
  | some (sha, log) => ([], Except.error (ExitMsg.truncatedSummary name sha log))
  | none =>
    let toPath := args.workspace ++ ["oss-history", name]
    let fromPath := args.workspace ++ [loot.path]
    match synchronize_into args.force fs fromPath toPath with
    | Except.error p => ([], Except.error (ExitMsg.clonePathConflict p))
    | Except.ok fs1 =>
      let configEvs := if args.noUserConfig then [] else [Op.configName, Op.configEmail]
      let rw := rewrite_history m loot.upstreamCommit loot.shas
      let evs := Op.clone :: configEvs ++ rw.1
      match rw.2 with
      | Except.error k => (evs, Except.error (ExitMsg.replay name k))
      | Except.ok sha =>
        let evs := evs ++ [Op.diff loot.ncsCommit sha]
        match check_history_rewrite m loot.ncsCommit sha with
        | Except.error e => (evs, Except.error (ExitMsg.mismatch e))
        | Except.ok () => (evs, Except.ok fs1)

/-- A run-level event: the upstream fetch of baseline resolution, the
`west ncs-loot` invocation, or a git operation inside one project's clone. -/
inductive MainOp where
  | fetchUpstream : MainOp
  | extractLoot : MainOp
  | project : String → Op → MainOp
deriving DecidableEq, Repr

/-- main's loop over the `ncs_loot.items()`, in order, stopping at the
first exit condition. -/
def processProjects (m : GitModel) (args : Args) :
    Fs → List (String × Loot) → List MainOp × Except ExitMsg Unit
  | _, [] => ([], Except.ok ())
  | fs, (name, loot) :: rest =>
    let r := processProject m args fs name loot
    match r.2 with
    | Except.error e => (r.1.map (MainOp.project name), Except.error e)
    | Except.ok fs1 =>
      let r1 := processProjects m args fs1 rest
      (r.1.map (MainOp.project name) ++ r1.1, r1.2)

def DEFAULT_PROJECTS_TO_CHECK : List String :=
  ["zephyr", "mbedtls", "mcuboot", "trusted-firmware-m"]

/-- `main()` (action.py lines 381-422): check that `<workspace>/zephyr`
exists (exiting before anything else when it does not); determine the
zephyr merge-base, fetching from upstream with branch "main" unless
`--zephyr-merge-base` was given; invoke `west ncs-loot` (modelled by
`lootOf`, keyed by merge-base and project list); then process each project
in order. -/
def main_run (m : GitModel) (zrepo : RepoEnv) (remote : RemoteEnv)
    (lootOf : Sha → List String → List (String × Loot))
    (args : Args) (fs : Fs) : List MainOp × Except ExitMsg Unit :=
  if pathExists fs (args.workspace ++ ["zephyr"]) = false then
    ([], Except.error ExitMsg.noZephyrDir)
  else
    let mb : List MainOp × Sha :=
      match args.zephyrMergeBase with
      | some z => ([], z)
      | none => ([MainOp.fetchUpstream], fetchAndMergeBase zrepo remote "main")
    let projects := args.projects.getD DEFAULT_PROJECTS_TO_CHECK
    let r := processProjects m args fs (lootOf mb.2 projects)
    (mb.1 ++ MainOp.extractLoot :: r.1, r.2)

/-- Operations of the rewrite that mutate the clone's history: the baseline
checkout and every cherry-pick (plain or keep-redundant). -/
def isRewriteMutation : Op → Bool
  | Op.checkout _ => true
  | Op.cherryPick _ _ => true
  | Op.cherryPickKeepRedundant _ _ => true
  | _ => false

/-! ## Concrete environments used to evaluate the theorems -/

/-- A git model where every cherry-pick succeeds and the new tip records
the picked sha syntactically; diffs are empty exactly between equal tips. -/
def demoModel : GitModel where
  pickOk := fun _ _ => true
  pickTip := fun t s => t ++ "+" ++ s
  redundantOk := fun _ _ => true
  diffEmpty := fun a b => a == b
  diffText := fun a b => a ++ "|" ++ b

/-- A git model where the plain cherry-pick of "p1" fails but its
keep-redundant retry succeeds. -/
def redundantModel : GitModel where
  pickOk := fun _ s => s != "p1"
  pickTip := fun t s => t ++ "+" ++ s
  redundantOk := fun _ _ => true
  diffEmpty := fun a b => a == b
  diffText := fun a b => a ++ "|" ++ b

/-- A git model where the plain cherry-pick of "p1" fails and its
keep-redundant retry fails as well. -/
def conflictModel : GitModel where
  pickOk := fun _ s => s != "p1"
  pickTip := fun t s => t ++ "+" ++ s
  redundantOk := fun _ _ => false
  diffEmpty := fun a b => a == b
  diffText := fun a b => a ++ "|" ++ b

/-- A git model in which every diff is non-empty. -/
def mismatchModel : GitModel :=
  { demoModel with diffEmpty := fun _ _ => false }

/-- Loot for a project whose single patch applies cleanly and whose
downstream tip matches the rewritten tip under `demoModel`. -/
def cleanLoot : Loot where
  shas := ["a1"]
  shortlogs := ["Add a feature"]
  path := "projA"
  upstreamCommit := "u0"
  ncsCommit := "u0+a1"

/-- Loot whose single shortlog ends with the ellipsis marker. -/
def truncatedLoot : Loot where
  shas := ["b1"]
  shortlogs := ["Fix stuff..."]
  path := "projB"
  upstreamCommit := "v0"
  ncsCommit := "v0"

def demoArgs : Args where
  workspace := ["ws"]
  projects := some ["projA", "projB"]
  force := false
  zephyrMergeBase := some "z0"
  noUserConfig := false

def demoLootOf : Sha → List String → List (String × Loot) :=
  fun _ _ => [("projA", cleanLoot), ("projB", truncatedLoot)]

def demoRepo : RepoEnv where
  head := "h0"
  mergeBase := fun a b => a ++ "&" ++ b

def demoRemote : RemoteEnv where
  symrefOutput := ""
  fetchTip := fun b => "tip-of-" ++ b

/-- A remote whose symref lookup output has the documented shape. -/
def goodRemote : RemoteEnv where
  symrefOutput := "ref: refs/heads/main\tHEAD\n6145ab537fcb\tHEAD"
  fetchTip := fun b => "tip-of-" ++ b

/-- A remote whose symref lookup output has no "ref: " line. -/
def badRemote : RemoteEnv where
  symrefOutput := "6145ab537fcb\tHEAD"
  fetchTip := fun b => "tip-of-" ++ b

/-! ## Lemmas about the patch loop -/

/-- On a successful run, the patch loop's plain cherry-pick attempts are
exactly the given patches, in order, each attempted onto the tip produced
by the previous pick. -/
theorem rewriteLoop_ok (m : GitModel) (ps : List Sha) : ∀ (t tip : Sha),
    (rewriteLoop m t ps).2 = Except.ok tip →
    (picksOf (rewriteLoop m t ps).1).map Prod.snd = ps ∧
    chainedFrom m t (picksOf (rewriteLoop m t ps).1) = true := by
  induction ps with
  | nil =>
    intro t tip _
    simp [rewriteLoop, picksOf, pickArgs, chainedFrom]
  | cons sha rest ih =>
    intro t tip h
    by_cases hp : m.pickOk t sha = true
    · simp only [rewriteLoop, hp, if_true] at h ⊢
      obtain ⟨h1, h2⟩ := ih (m.pickTip t sha) tip h
      simp [picksOf, pickArgs, chainedFrom] at h1 h2 ⊢
      exact ⟨h1, h2⟩
    · rw [Bool.not_eq_true] at hp
      simp only [rewriteLoop, hp, Bool.false_eq_true, if_false] at h
      by_cases hr : m.redundantOk t sha = true <;> simp [hr] at h

/-- When every patch before position `i` picks cleanly and the patch at
position `i` fails its plain cherry-pick, the loop stops there: the plain
attempts are the clean prefix plus the failing patch, the keep-redundant
retry is attempted once for the failing patch only, and the loop exits
with status 1 in both retry outcomes. -/
theorem rewriteLoop_fail_at (m : GitModel) (pre : List Sha) :
    ∀ (t sha : Sha) (rest : List Sha),
    picksClean m t pre = true →
    m.pickOk (tipAfter m t pre) sha = false →
    (rewriteLoop m t (pre ++ sha :: rest)).2 =
      (if m.redundantOk (tipAfter m t pre) sha then
        Except.error (ExitKind.redundant sha)
      else Except.error (ExitKind.notRedundant sha)) ∧
    (picksOf (rewriteLoop m t (pre ++ sha :: rest)).1).map Prod.snd = pre ++ [sha] ∧
    (redundantPicksOf (rewriteLoop m t (pre ++ sha :: rest)).1).map Prod.snd = [sha] := by
  induction pre with
  | nil =>
    intro t sha rest _ hfail
    simp only [tipAfter] at hfail
    by_cases hr : m.redundantOk t sha = true <;>
      simp [rewriteLoop, tipAfter, hfail, hr, picksOf, pickArgs,
        redundantPicksOf, redundantArgs]
  | cons p pre ih =>
    intro t sha rest hclean hfail
    simp only [picksClean, Bool.and_eq_true] at hclean
    simp only [tipAfter] at hfail
    obtain ⟨hok, hclean⟩ := hclean
    obtain ⟨h1, h2, h3⟩ := ih (m.pickTip t p) sha rest hclean hfail
    simp only [List.cons_append, rewriteLoop, hok, if_true]
    refine ⟨by simpa [tipAfter] using h1, ?_, ?_⟩
    · simp [picksOf, pickArgs] at h2 ⊢
      exact h2
    · simpa [redundantPicksOf, redundantArgs] using h3

/-! ## Claims -/

/-- C1 counterexample: with the patch "p1" failing its plain cherry-pick
and succeeding its keep-redundant retry, the claim says the rewriter
continues to "p2" and the run is not aborted; in fact `rewrite_history`
exits with status 1 (`sys.exit(1)` runs after the retry in both outcomes),
and "p2" is never attempted. -/
theorem C1_counterexample :
    (rewrite_history redundantModel "u0" ["p1", "p2"]).2 =
      Except.error (ExitKind.redundant "p1") ∧
    (picksOf (rewrite_history redundantModel "u0" ["p1", "p2"]).1).map Prod.snd =
      ["p1"] := by
  decide

/-- C1 (amended): for every patch whose initial cherry-pick onto the
current rewritten tip fails, if the retry in keep-redundant-commit mode
succeeds, the script reports the commit as redundant but still terminates
the run with exit status 1; no later patch in the sequence is attempted. -/
theorem C1_redundant_retry_still_exits (m : GitModel) (base sha : Sha)
    (pre rest : List Sha)
    (hpre : picksClean m base pre = true)
    (hfail : m.pickOk (tipAfter m base pre) sha = false)
    (hred : m.redundantOk (tipAfter m base pre) sha = true) :
    (rewrite_history m base (pre ++ sha :: rest)).2 =
      Except.error (ExitKind.redundant sha) ∧
    (picksOf (rewrite_history m base (pre ++ sha :: rest)).1).map Prod.snd =
      pre ++ [sha] ∧
    (redundantPicksOf (rewrite_history m base (pre ++ sha :: rest)).1).map Prod.snd =
      [sha] := by
  obtain ⟨h1, h2, h3⟩ := rewriteLoop_fail_at m pre base sha rest hpre hfail
  rw [hred, if_pos rfl] at h1
  exact ⟨h1, by simpa [rewrite_history, picksOf, pickArgs] using h2,
    by simpa [rewrite_history, redundantPicksOf, redundantArgs] using h3⟩

/-- Witness for C1: a concrete run where "p0" applies cleanly, "p1" fails
its plain pick, and the keep-redundant retry succeeds. -/
theorem C1_redundant_retry_still_exits_witness :
    picksClean redundantModel "u0" ["p0"] = true ∧
    redundantModel.pickOk (tipAfter redundantModel "u0" ["p0"]) "p1" = false ∧
    redundantModel.redundantOk (tipAfter redundantModel "u0" ["p0"]) "p1" = true ∧
    ((rewrite_history redundantModel "u0" (["p0"] ++ "p1" :: ["p2"])).2 =
        Except.error (ExitKind.redundant "p1") ∧
      (picksOf (rewrite_history redundantModel "u0"
          (["p0"] ++ "p1" :: ["p2"])).1).map Prod.snd = ["p0"] ++ ["p1"] ∧
      (redundantPicksOf (rewrite_history redundantModel "u0"
          (["p0"] ++ "p1" :: ["p2"])).1).map Prod.snd = ["p1"]) :=
  ⟨by decide, by decide, by decide,
    C1_redundant_retry_still_exits redundantModel "u0" "p1" ["p0"] ["p2"]
      (by decide) (by decide) (by decide)⟩

/-- C2: when a patch fails both its plain cherry-pick and its
keep-redundant retry, the run terminates immediately with the replay
failure naming that patch's sha; no later patch is attempted and
`rewrite_and_verify` produces no RewriteResult. -/
theorem C2_replay_failure (m : GitModel) (base sha : Sha) (pre rest : List Sha)
    (originalTip : Sha)
    (hpre : picksClean m base pre = true)
    (hfail : m.pickOk (tipAfter m base pre) sha = false)
    (hred : m.redundantOk (tipAfter m base pre) sha = false) :
    (rewrite_history m base (pre ++ sha :: rest)).2 =
      Except.error (ExitKind.notRedundant sha) ∧
    (picksOf (rewrite_history m base (pre ++ sha :: rest)).1).map Prod.snd =
      pre ++ [sha] ∧
    rewrite_and_verify m base (pre ++ sha :: rest) originalTip =
      Except.error (RunError.replay (ExitKind.notRedundant sha)) := by
  obtain ⟨h1, h2, _⟩ := rewriteLoop_fail_at m pre base sha rest hpre hfail
  rw [hred] at h1
  simp only [Bool.false_eq_true, if_false] at h1
  have hrw : (rewrite_history m base (pre ++ sha :: rest)).2 =
      Except.error (ExitKind.notRedundant sha) := h1
  refine ⟨hrw, by simpa [rewrite_history, picksOf, pickArgs] using h2, ?_⟩
  simp [rewrite_and_verify, hrw]

/-- Witness for C2: a concrete run where "p0" applies cleanly and "p1"
fails both its plain pick and its keep-redundant retry. -/
theorem C2_replay_failure_witness :
    picksClean conflictModel "u0" ["p0"] = true ∧
    conflictModel.pickOk (tipAfter conflictModel "u0" ["p0"]) "p1" = false ∧
    conflictModel.redundantOk (tipAfter conflictModel "u0" ["p0"]) "p1" = false ∧
    ((rewrite_history conflictModel "u0" (["p0"] ++ "p1" :: ["p2"])).2 =
        Except.error (ExitKind.notRedundant "p1") ∧
      (picksOf (rewrite_history conflictModel "u0"
          (["p0"] ++ "p1" :: ["p2"])).1).map Prod.snd = ["p0"] ++ ["p1"] ∧
      rewrite_and_verify conflictModel "u0" (["p0"] ++ "p1" :: ["p2"]) "t0" =
        Except.error (RunError.replay (ExitKind.notRedundant "p1"))) :=
  ⟨by decide, by decide, by decide,
    C2_replay_failure conflictModel "u0" "p1" ["p0"] ["p2"] "t0"
      (by decide) (by decide) (by decide)⟩

/-- C6: on a run where every patch applies, the rewriter's plain
cherry-pick attempts are exactly the given patch sequence, in order, with
no patch reordered, skipped or repeated, and each pick is attempted onto
the tip produced by the previous pick (the first onto the checked-out
baseline). -/
theorem C6_replay_order (m : GitModel) (base : Sha) (patches : List Sha)
    (tip : Sha) (h : (rewrite_history m base patches).2 = Except.ok tip) :
    (picksOf (rewrite_history m base patches).1).map Prod.snd = patches ∧
    chainedFrom m base (picksOf (rewrite_history m base patches).1) = true := by
  have hloop : (rewriteLoop m base patches).2 = Except.ok tip := h
  obtain ⟨h1, h2⟩ := rewriteLoop_ok m patches base tip hloop
  constructor
  · simpa [rewrite_history, picksOf, pickArgs] using h1
  · simpa [rewrite_history, picksOf, pickArgs] using h2

/-- Witness for C6: a concrete clean two-patch run. -/
theorem C6_replay_order_witness :
    (rewrite_history demoModel "u0" ["p1", "p2"]).2 = Except.ok "u0+p1+p2" ∧
    ((picksOf (rewrite_history demoModel "u0" ["p1", "p2"]).1).map Prod.snd =
        ["p1", "p2"] ∧
      chainedFrom demoModel "u0"
        (picksOf (rewrite_history demoModel "u0" ["p1", "p2"]).1) = true) :=
  ⟨by decide, C6_replay_order demoModel "u0" ["p1", "p2"] "u0+p1+p2" (by decide)⟩

/-- C9: on the empty patch series with originalTip equal to the baseline,
no cherry-pick is attempted, the rewritten commit is the baseline itself,
the final diff is empty, and the result has ok = true. -/
theorem C9_empty_series (m : GitModel) (u0 : Sha)
    (hrefl : m.diffEmpty u0 u0 = true) :
    picksOf (rewrite_history m u0 []).1 = [] ∧
    (rewrite_history m u0 []).2 = Except.ok u0 ∧
    rewrite_and_verify m u0 [] u0 = Except.ok ⟨u0, u0, true⟩ := by
  refine ⟨by simp [rewrite_history, rewriteLoop, picksOf, pickArgs], rfl, ?_⟩
  simp [rewrite_and_verify, rewrite_history, rewriteLoop, check_history_rewrite, hrefl]

/-- Witness for C9: the empty series under the concrete model. -/
theorem C9_empty_series_witness :
    demoModel.diffEmpty "u0" "u0" = true ∧
    (picksOf (rewrite_history demoModel "u0" []).1 = [] ∧
      (rewrite_history demoModel "u0" []).2 = Except.ok "u0" ∧
      rewrite_and_verify demoModel "u0" [] "u0" = Except.ok ⟨"u0", "u0", true⟩) :=
  ⟨by decide, C9_empty_series demoModel "u0" (by decide)⟩

/-- C3: the verifier succeeds exactly when the diff between the original
tip and the rewritten tip is empty; a non-empty diff yields the mismatch
error carrying the diff text, and a successful `rewrite_and_verify` result
always has ok = true with an empty diff against the original tip. -/
theorem C3_verify (m : GitModel) (b r base originalTip : Sha)
    (patches : List Sha) :
    (check_history_rewrite m b r = Except.ok () ↔ m.diffEmpty b r = true) ∧
    (m.diffEmpty b r = false →
      check_history_rewrite m b r = Except.error ⟨m.diffText b r⟩) ∧
    (∀ res, rewrite_and_verify m base patches originalTip = Except.ok res →
      res.ok = true ∧ m.diffEmpty originalTip res.rewritten = true ∧
      res.beforeSha = originalTip) ∧
    (∀ tip, (rewrite_history m base patches).2 = Except.ok tip →
      m.diffEmpty originalTip tip = false →
      rewrite_and_verify m base patches originalTip =
        Except.error (RunError.mismatch ⟨m.diffText originalTip tip⟩)) := by
  refine ⟨?_, ?_, ?_, ?_⟩
  · by_cases hd : m.diffEmpty b r = true <;> simp [check_history_rewrite, hd]
  · intro hd
    simp [check_history_rewrite, hd]
  · intro res hres
    unfold rewrite_and_verify at hres
    cases hrw : (rewrite_history m base patches).2 with
    | error k => rw [hrw] at hres; exact absurd hres (by simp)
    | ok sha =>
      rw [hrw] at hres
      by_cases hd : m.diffEmpty originalTip sha = true
      · simp only [check_history_rewrite, hd, if_true] at hres
        obtain rfl : RewriteResult.mk originalTip sha true = res :=
          by simpa using hres
        exact ⟨rfl, hd, rfl⟩
      · rw [Bool.not_eq_true] at hd
        simp [check_history_rewrite, hd] at hres
  · intro tip hrw hd
    simp [rewrite_and_verify, hrw, check_history_rewrite, hd]

/-- Witness for C3: an empty patch series whose rewritten tip differs from
the original tip under a model where the diff is non-empty. -/
theorem C3_verify_witness :
    (rewrite_history mismatchModel "u0" []).2 = Except.ok "u0" ∧
    mismatchModel.diffEmpty "t0" "u0" = false ∧
    rewrite_and_verify mismatchModel "u0" [] "t0" =
      Except.error (RunError.mismatch ⟨mismatchModel.diffText "t0" "u0"⟩) :=
  ⟨by decide, by decide,
    (C3_verify mismatchModel "t0" "u0" "u0" "t0" []).2.2.2 "u0"
      (by decide) (by decide)⟩

/-- C5: with a branch given, baseline resolution returns the merge-base of
the repository's HEAD with the fetched branch tip; with no branch given it
first discovers the remote's default branch from the symref lookup, and
fails with the raw remote output when no line of that output starts with
"ref: ". -/
theorem C5_resolve_baseline (repo : RepoEnv) (remote : RemoteEnv) :
    (∀ b, get_merge_base repo remote (some b) =
      Except.ok (repo.mergeBase repo.head (remote.fetchTip b))) ∧
    (∀ br, get_head_branch remote.symrefOutput = Except.ok br →
      get_merge_base repo remote none =
        Except.ok (repo.mergeBase repo.head (remote.fetchTip br))) ∧
    ((splitLines remote.symrefOutput).all
        (fun line => !("ref: ".data.isPrefixOf line.data)) = true →
      get_merge_base repo remote none = Except.error remote.symrefOutput) := by
  refine ⟨fun b => rfl, ?_, ?_⟩
  · intro br h
    simp [get_merge_base, h, fetchAndMergeBase]
  · intro hall
    have hfind : (splitLines remote.symrefOutput).find?
        (fun line => "ref: ".data.isPrefixOf line.data) = none := by
      rw [List.find?_eq_none]
      intro x hx hc
      have hx2 := List.all_eq_true.mp hall x hx
      simp only [Bool.not_eq_true'] at hx2
      rw [hx2] at hc
      exact Bool.noConfusion hc
    simp [get_merge_base, get_head_branch, hfind]

/-- Witness for C5: default-branch discovery on well-formed ls-remote
output, and the failure on output with no "ref: " line. -/
theorem C5_resolve_baseline_witness :
    get_head_branch goodRemote.symrefOutput = Except.ok "refs/heads/main" ∧
    get_merge_base demoRepo goodRemote none =
      Except.ok (demoRepo.mergeBase demoRepo.head
        (goodRemote.fetchTip "refs/heads/main")) ∧
    (splitLines badRemote.symrefOutput).all
        (fun line => !("ref: ".data.isPrefixOf line.data)) = true ∧
    get_merge_base demoRepo badRemote none =
      Except.error badRemote.symrefOutput :=
  ⟨by decide,
    (C5_resolve_baseline demoRepo goodRemote).2.1 "refs/heads/main" (by decide),
    by decide,
    (C5_resolve_baseline demoRepo badRemote).2.2 (by decide)⟩

/-- C7 counterexample: the claim says that with overwrite permitted only
the stale clone itself is deleted and sibling clones under the same parent
are left unchanged; in fact the code deletes `to_path.parent`, so the
sibling "mbedtls" clone is gone from the resulting filesystem. -/
theorem C7_counterexample :
    synchronize_into true
      [["ws", "oss-history", "zephyr"], ["ws", "oss-history", "mbedtls"]]
      ["ws", "zephyr"] ["ws", "oss-history", "zephyr"] =
      Except.ok [["ws", "oss-history", "zephyr"]] ∧
    pathExists [["ws", "oss-history", "zephyr"]]
      ["ws", "oss-history", "mbedtls"] = false := by
  decide

/-- C7 (amended): when the target clone path exists, the core fails fast
without overwrite permission; with overwrite permission it deletes the
target's entire parent directory — including sibling clones under it — and
then clones afresh; paths outside that parent directory are unchanged. -/
theorem C7_clone_path_lifecycle (fs : Fs) (fromPath toPath : Path)
    (hex : pathExists fs toPath = true) :
    synchronize_into false fs fromPath toPath = Except.error toPath ∧
    synchronize_into true fs fromPath toPath =
      Except.ok (gitClone (rmtree fs toPath.dropLast) toPath) ∧
    (∀ q : Path, toPath.dropLast.isPrefixOf q = false →
      (q ∈ gitClone (rmtree fs toPath.dropLast) toPath ↔ q ∈ fs)) := by
  refine ⟨by simp [synchronize_into, hex], by simp [synchronize_into, hex], ?_⟩
  intro q hq
  have hqne : q ≠ toPath := by
    intro h
    subst h
    have hpref : q.dropLast.isPrefixOf q = true :=
      List.isPrefixOf_iff_prefix.mpr (List.dropLast_prefix q)
    rw [hpref] at hq
    exact absurd hq (by simp)
  simp [gitClone, rmtree, List.mem_filter, hqne, hq]

/-- Witness for C7: a filesystem holding the stale clone and an unrelated
path; the fail-fast branch and the outside-parent frame condition. -/
theorem C7_clone_path_lifecycle_witness :
    pathExists [["ws", "oss-history", "zephyr"], ["ws", "zephyr"]]
      ["ws", "oss-history", "zephyr"] = true ∧
    synchronize_into false [["ws", "oss-history", "zephyr"], ["ws", "zephyr"]]
      ["ws", "zephyr"] ["ws", "oss-history", "zephyr"] =
      Except.error ["ws", "oss-history", "zephyr"] ∧
    (["ws", "zephyr"] ∈
        gitClone (rmtree [["ws", "oss-history", "zephyr"], ["ws", "zephyr"]]
          (["ws", "oss-history", "zephyr"].dropLast)) ["ws", "oss-history", "zephyr"] ↔
      ["ws", "zephyr"] ∈ [["ws", "oss-history", "zephyr"], ["ws", "zephyr"]]) :=
  ⟨by decide,
    (C7_clone_path_lifecycle [["ws", "oss-history", "zephyr"], ["ws", "zephyr"]]
      ["ws", "zephyr"] ["ws", "oss-history", "zephyr"] (by decide)).1,
    (C7_clone_path_lifecycle [["ws", "oss-history", "zephyr"], ["ws", "zephyr"]]
      ["ws", "zephyr"] ["ws", "oss-history", "zephyr"] (by decide)).2.2
      ["ws", "zephyr"] (by decide)⟩

/-- C8: when identity-config overriding is not suppressed, every operation
a project's pipeline performs before the user.name override (and before the
user.email override) is non-mutating: no baseline checkout and no
cherry-pick ever precedes the identity override. -/
theorem C8_config_before_mutation (m : GitModel) (args : Args) (fs : Fs)
    (name : String) (loot : Loot) (h : args.noUserConfig = false) :
    (((processProject m args fs name loot).1.takeWhile
        (fun op => op != Op.configName)).all
      (fun op => !isRewriteMutation op) = true) ∧
    (((processProject m args fs name loot).1.takeWhile
        (fun op => op != Op.configEmail)).all
      (fun op => !isRewriteMutation op) = true) := by
  unfold processProject
  rw [h]
  simp only [Bool.false_eq_true, if_false]
  cases hoff : firstOffender loot with
  | some x => simp [hoff]
  | none =>
    simp only [hoff]
    cases hsync : synchronize_into args.force fs (args.workspace ++ [loot.path])
        (args.workspace ++ ["oss-history", name]) with
    | error p => simp [hsync]
    | ok fs1 =>
      simp only [hsync]
      cases hrw : (rewrite_history m loot.upstreamCommit loot.shas).2 with
      | error k =>
        simp only [hrw]
        constructor <;> simp [List.takeWhile_cons, isRewriteMutation]
      | ok sha =>
        simp only [hrw]
        cases hc : check_history_rewrite m loot.ncsCommit sha with
        | error e =>
          simp only [hc]
          constructor <;> simp [List.takeWhile_cons, isRewriteMutation]
        | ok u =>
          simp only [hc]
          constructor <;> simp [List.takeWhile_cons, isRewriteMutation]

/-- Witness for C8: a concrete successful single-project pipeline. -/
theorem C8_config_before_mutation_witness :
    demoArgs.noUserConfig = false ∧
    ((((processProject demoModel demoArgs [["ws", "zephyr"]] "projA"
          cleanLoot).1.takeWhile (fun op => op != Op.configName)).all
        (fun op => !isRewriteMutation op) = true) ∧
      (((processProject demoModel demoArgs [["ws", "zephyr"]] "projA"
          cleanLoot).1.takeWhile (fun op => op != Op.configEmail)).all
        (fun op => !isRewriteMutation op) = true)) :=
  ⟨rfl, C8_config_before_mutation demoModel demoArgs [["ws", "zephyr"]] "projA"
    cleanLoot rfl⟩

/-- C4 counterexample: the claim says a truncated shortlog anywhere in the
run prevents any clone from being performed for every project; in this run
project "projA" (clean) is cloned before the truncated shortlog of "projB"
aborts the run. -/
theorem C4_counterexample :
    (main_run demoModel demoRepo demoRemote demoLootOf demoArgs
        [["ws", "zephyr"]]).2 =
      Except.error (ExitMsg.truncatedSummary "projB" "b1" "Fix stuff...") ∧
    MainOp.project "projA" Op.clone ∈
      (main_run demoModel demoRepo demoRemote demoLootOf demoArgs
        [["ws", "zephyr"]]).1 := by
  decide

/-- C4 (amended): a shortlog summary ending in "..." anywhere in the
project sequence makes the run fail, and no clone, checkout or any other
git operation is performed for the offending project or for any project
after it; projects earlier in the iteration order, however, have already
been processed by the time the offending project is validated. -/
theorem C4_truncation_aborts_mid_run (m : GitModel) (args : Args)
    (pre : List (String × Loot)) :
    ∀ (fs : Fs) (name : String) (loot : Loot) (rest : List (String × Loot)),
    (firstOffender loot).isSome = true →
    (processProjects m args fs (pre ++ (name, loot) :: rest)).2.isOk = false ∧
    (∀ p op, MainOp.project p op ∈
        (processProjects m args fs (pre ++ (name, loot) :: rest)).1 →
      p ∈ pre.map Prod.fst) := by
  induction pre with
  | nil =>
    intro fs name loot rest hbad
    obtain ⟨⟨sha, log⟩, hoff⟩ := Option.isSome_iff_exists.mp hbad
    simp only [List.nil_append, processProjects, processProject, hoff]
    exact ⟨rfl, by intro p op hp; simp at hp⟩
  | cons q pre ih =>
    intro fs name loot rest hbad
    obtain ⟨qn, ql⟩ := q
    simp only [List.cons_append, processProjects]
    cases hr : (processProject m args fs qn ql).2 with
    | error e =>
      simp only [hr]
      refine ⟨rfl, ?_⟩
      intro p op hp
      obtain ⟨a, _, ha⟩ := List.mem_map.mp hp
      cases ha
      simp
    | ok fs1 =>
      simp only [hr]
      obtain ⟨ih1, ih2⟩ := ih fs1 name loot rest hbad
      refine ⟨ih1, ?_⟩
      intro p op hp
      rcases List.mem_append.mp hp with hl | hrr
      · obtain ⟨a, _, ha⟩ := List.mem_map.mp hl
        cases ha
        simp
      · exact List.mem_cons_of_mem _ (ih2 p op hrr)

/-- Witness for C4: one clean project followed by the truncated one. -/
theorem C4_truncation_aborts_mid_run_witness :
    (firstOffender truncatedLoot).isSome = true ∧
    (processProjects demoModel demoArgs [["ws", "zephyr"]]
        ([("projA", cleanLoot)] ++ ("projB", truncatedLoot) :: [])).2.isOk =
      false :=
  ⟨by decide,
    (C4_truncation_aborts_mid_run demoModel demoArgs [("projA", cleanLoot)]
      [["ws", "zephyr"]] "projB" truncatedLoot [] (by decide)).1⟩

/-- C10: when the workspace has no "zephyr" subdirectory, the run
terminates with an error before any upstream fetch, loot extraction, clone
or rewrite — even when an explicit zephyr merge-base override is supplied
and "zephyr" is not among the selected projects. -/
theorem C10_zephyr_dir_required (m : GitModel) (zrepo : RepoEnv)
    (remote : RemoteEnv) (lootOf : Sha → List String → List (String × Loot))
    (args : Args) (fs : Fs) (z : Sha) (ps : List String)
    (_hz : args.zephyrMergeBase = some z)
    (_hp : args.projects = some ps)
    (_hzp : "zephyr" ∉ ps)
    (habsent : pathExists fs (args.workspace ++ ["zephyr"]) = false) :
    main_run m zrepo remote lootOf args fs =
      ([], Except.error ExitMsg.noZephyrDir) := by
  simp [main_run, habsent]

/-- Witness for C10: the demo arguments carry an explicit merge-base
override and select only "projA"/"projB", and the filesystem is empty. -/
theorem C10_zephyr_dir_required_witness :
    demoArgs.zephyrMergeBase = some "z0" ∧
    demoArgs.projects = some ["projA", "projB"] ∧
    "zephyr" ∉ ["projA", "projB"] ∧
    pathExists [] (demoArgs.workspace ++ ["zephyr"]) = false ∧
    main_run demoModel demoRepo demoRemote demoLootOf demoArgs [] =
      ([], Except.error ExitMsg.noZephyrDir) :=
  ⟨rfl, rfl, by decide, by decide,
    C10_zephyr_dir_required demoModel demoRepo demoRemote demoLootOf demoArgs
      [] "z0" ["projA", "projB"] rfl rfl (by decide) (by decide)⟩

end OssHistory
